import Mathlib

/-!
ClusterEventSender: the length-prefixed streaming send protocol

A shallow embedding of `AClusterEventSenderActor` (ClusterEventSenderActor.h / .cpp):
`Connect`, `Disconnect`, `IsOpen`, `SendClusterEventTo`, `SendPacket` and `SendChunk`.

The engine pieces the actor calls but does not define (the socket, the address parser,
the JSON library, `Sleep`) are parameters of the embedding. Machine integers are `Nat`
and `Int` with the C++ conversions written out. Loops that the C++ does not bound take
a fuel argument; `none` / `outOfFuel` means the fuel ran out before the loop ended.
Log calls do not affect control flow and are left out.
-/

namespace ClusterEventSender

/-! ## Machine integers -/

/-- The value of `static_cast<uint32>(v)` for a signed `v`. -/
def toUInt32 (v : Int) : Nat := (v % 4294967296).toNat

/-- Wrap-around of a signed 32-bit value. -/
def wrapInt32 (v : Int) : Int := (v + 2147483648) % 4294967296 - 2147483648

/-- Range of the C++ type `int32`. -/
def IsInt32 (v : Int) : Prop := -2147483648 ≤ v ∧ v ≤ 2147483647

/-- Range of the C++ type `uint32`. -/
def IsUInt32 (n : Nat) : Prop := n < 4294967296

instance (v : Int) : Decidable (IsInt32 v) := by unfold IsInt32; infer_instance

instance (n : Nat) : Decidable (IsUInt32 n) := by unfold IsUInt32; infer_instance

/-! ## The socket the actor talks to -/

/-- What one `FSocket::Send(Data, Count, BytesSent)` call gives back: its `bool` result,
the value it stored in the `int32& BytesSent` out-parameter, and the socket afterwards. -/
structure SendReply (σ : Type) where
  ok : Bool
  BytesSent : Int
  next : σ

/-- The engine socket (`FSocket`) together with whatever is at its other end, as a state
machine over `σ`. `Send` sees the bytes readable from the `Data` pointer and `Count`.
`Connected s` is `GetConnectionState() == ESocketConnectionState::SCS_Connected`.
`Sleep` is `FPlatformProcess::Sleep`: the world may change while the caller sleeps. -/
structure Transport (σ : Type) where
  Connect : σ → Nat → Int → Bool × σ
  Send : σ → List Nat → Nat → SendReply σ
  Close : σ → σ
  Connected : σ → Bool
  Sleep : Rat → σ → σ

/-- Every value a transport stores in the `int32& BytesSent` out-parameter is an `int32`. -/
def Transport.Int32Replies {σ : Type} (T : Transport σ) : Prop :=
  ∀ s data count, IsInt32 (T.Send s data count).BytesSent

/-- One `Socket->Send` call made by `SendChunk`: the offset `BytesSentTotal` added to the
buffer pointer, the requested length `BytesSendLeft`, and what the socket answered. -/
structure SendCall where
  offset : Nat
  count : Nat
  ok : Bool
  BytesSent : Int
  deriving DecidableEq, Repr

/-! ## SendChunk -/

/-- The `while (BytesSentTotal < ChunkSize)` loop of `SendChunk`, started at a given
`BytesSentTotal`. Returns the `bool` result, the socket afterwards and the `Send` calls
made, in order. -/
def SendChunk.loop {σ : Type} (T : Transport σ) (ChunkBuffer : List Nat) (ChunkSize : Nat) :
    Nat → Nat → σ → Option (Bool × σ × List SendCall)
  | 0, BytesSentTotal, s =>
    if BytesSentTotal < ChunkSize then none else some (true, s, [])
  | fuel + 1, BytesSentTotal, s =>
    if BytesSentTotal < ChunkSize then
      let BytesSendLeft := (ChunkSize - BytesSentTotal) % 4294967296
      let r := T.Send s (ChunkBuffer.drop BytesSentTotal) BytesSendLeft
      let BytesSentNow := r.BytesSent
      let call : SendCall := ⟨BytesSentTotal, BytesSendLeft, r.ok, BytesSentNow⟩
      if r.ok = false then
        some (false, r.next, [call])
      else if BytesSentNow ≤ 0 ∨ toUInt32 BytesSentNow > BytesSendLeft then
        some (false, r.next, [call])
      else
        (SendChunk.loop T ChunkBuffer ChunkSize fuel
            ((BytesSentTotal + toUInt32 BytesSentNow) % 4294967296) r.next).map
          (fun res => (res.1, res.2.1, call :: res.2.2))
    else some (true, s, [])

/-- The member function `AClusterEventSenderActor::SendChunk(ChunkBuffer, ChunkSize, ChunkName)` on a socket in
state `s`: `BytesSentTotal` starts at 0. -/
def SendChunk {σ : Type} (T : Transport σ) (ChunkBuffer : List Nat) (ChunkSize : Nat)
    (fuel : Nat) (s : σ) : Option (Bool × σ × List SendCall) :=
  SendChunk.loop T ChunkBuffer ChunkSize fuel 0 s

/-- The bytes of `ChunkBuffer` a list of `Send` calls got accepted, call after call. -/
def acceptedBytes (ChunkBuffer : List Nat) : List SendCall → List Nat
  | [] => []
  | c :: cs => (ChunkBuffer.drop c.offset).take c.BytesSent.toNat ++ acceptedBytes ChunkBuffer cs

/-- The calls are consecutive from offset `off`: each starts where the bytes accepted so
far end and asks for all of the `n - offset` bytes that remain. -/
def ConsecutiveFrom (n : Nat) : Nat → List SendCall → Prop
  | _, [] => True
  | off, c :: cs =>
    c.offset = off ∧ c.count = n - off ∧ ConsecutiveFrom n (off + c.BytesSent.toNat) cs

/-- A `Send` attempt `SendChunk` treats as failed: the call returned `false`, or it
reported `BytesSent <= 0`, or it reported more bytes than were requested. -/
def SendCall.Failed (c : SendCall) : Prop :=
  c.ok = false ∨ c.BytesSent ≤ 0 ∨ c.BytesSent > (c.count : Int)

instance (c : SendCall) : Decidable c.Failed := by unfold SendCall.Failed; infer_instance

/-- A test transport over a call counter: each `Send` accepts `min k Count` bytes. -/
def chunkedTransport (k : Nat) : Transport Nat where
  Connect := fun s _ _ => (true, s)
  Send := fun s _ count => ⟨true, (min (min k count) 2147483647 : Nat), s + 1⟩
  Close := fun s => s
  Connected := fun _ => true
  Sleep := fun _ s => s

/-- A test transport whose `Send` always reports success with 0 bytes written. -/
def stalledTransport : Transport Nat where
  Connect := fun s _ _ => (true, s)
  Send := fun s _ _ => ⟨true, 0, s + 1⟩
  Close := fun s => s
  Connected := fun _ => true
  Sleep := fun _ s => s

/-! ## The actor -/

/-- The outcome of running one of the actor's member functions: it returned a value, or
it touched memory it does not own (a null `Socket`, a copy past the end of the buffer),
or the fuel given to an unbounded loop ran out. -/
inductive Outcome (α : Type) where
  | returned (a : α)
  | memoryFault
  | outOfFuel
  deriving DecidableEq, Repr

/-- A call the actor makes on the engine, as recorded in a run: `Socket->Connect` with the
address and port, `FPlatformProcess::Sleep` with its argument in seconds, `Socket->Send`,
`Socket->Close`. -/
inductive Call where
  | connect (ip : Nat) (port : Int)
  | sleep (seconds : Rat)
  | send (c : SendCall)
  | close
  deriving DecidableEq, Repr

/-- The engine array `TArray<uint8>`: the element count `ArrayNum` and the allocated bytes `Data`. -/
structure TArray where
  ArrayNum : Nat
  Data : List Nat
  deriving DecidableEq, Repr

/-- The private members of `AClusterEventSenderActor`: `FSocket* Socket` (`none` is
`nullptr`) and `TArray<uint8> DataBuffer`. `ConnectionName` is only used in log lines. -/
structure Actor (σ : Type) where
  Socket : Option σ
  DataBuffer : TArray
  deriving DecidableEq

/-- The constant `static constexpr int32 PacketBufferSize = 4 * 1024 * 1024`. -/
def PacketBufferSize : Nat := 4 * 1024 * 1024

/-- The value of `sizeof(FPacketHeader)`: the struct holds one `uint32`. -/
def sizeofFPacketHeader : Nat := 4

/-- The actor as constructed: `Socket = nullptr`, an empty `DataBuffer`. -/
def Actor.constructed {σ : Type} : Actor σ := ⟨none, ⟨0, []⟩⟩

/-- The lifecycle hook `BeginPlay`: `Socket = CreateSocket(name)` (the engine gives `NewSocket`, possibly
`nullptr`) and `DataBuffer.AddUninitialized(PacketBufferSize)`, whose bytes are whatever
the allocator left there (`garbage`). -/
def BeginPlay {σ : Type} (NewSocket : Option σ) (garbage : Nat → Nat) (A : Actor σ) : Actor σ :=
  { Socket := NewSocket
    DataBuffer :=
      ⟨A.DataBuffer.ArrayNum + PacketBufferSize,
       A.DataBuffer.Data ++ (List.range PacketBufferSize).map garbage⟩ }

/-- The query `IsOpen()`: `Socket && Socket->GetConnectionState() == SCS_Connected`. -/
def IsOpen {σ : Type} (T : Transport σ) (A : Actor σ) : Bool :=
  match A.Socket with
  | none => false
  | some s => T.Connected s

/-! ## Connect and Disconnect -/

/-- The connection loop of `Connect`, from `TryIdx`. The `Bool` is `true` when the loop
was left because `Socket->Connect` succeeded and `false` when the attempts limit was
reached (`return false` inside the loop). -/
def Connect.loop {σ : Type} (T : Transport σ) (ip : Nat) (InPort : Int) (TriesAmount : Int)
    (TryDelay : Rat) : Nat → Int → σ → Option (Bool × σ × List Call)
  | 0, _, _ => none
  | fuel + 1, TryIdx, s =>
    let r := T.Connect s ip InPort
    if r.1 = false then
      if 0 < TriesAmount then
        let TryIdx1 := wrapInt32 (TryIdx + 1)
        if TryIdx1 ≥ TriesAmount then
          some (false, r.2, [Call.connect ip InPort])
        else
          (Connect.loop T ip InPort TriesAmount TryDelay fuel TryIdx1
              (T.Sleep (TryDelay / 1000) r.2)).map
            (fun res => (res.1, res.2.1,
              Call.connect ip InPort :: Call.sleep (TryDelay / 1000) :: res.2.2))
      else
        (Connect.loop T ip InPort TriesAmount TryDelay fuel TryIdx
            (T.Sleep (TryDelay / 1000) r.2)).map
          (fun res => (res.1, res.2.1,
            Call.connect ip InPort :: Call.sleep (TryDelay / 1000) :: res.2.2))
    else some (true, r.2, [Call.connect ip InPort])

/-- The member function `Connect(InAddr, InPort, TriesAmount, TryDelay)`. `Parse` is `FIPv4Address::Parse`,
giving the address value or `none` when it rejects the string. -/
def Connect {σ : Type} (T : Transport σ) (Parse : String → Option Nat) (A : Actor σ)
    (InAddr : String) (InPort : Int) (TriesAmount : Int) (TryDelay : Rat) (fuel : Nat) :
    Outcome (Bool × Actor σ × List Call) :=
  match Parse InAddr with
  | none => Outcome.returned (false, A, [])
  | some IPAddr =>
    match A.Socket with
    | none => Outcome.memoryFault
    | some s =>
      match Connect.loop T IPAddr InPort TriesAmount TryDelay fuel 0 s with
      | none => Outcome.outOfFuel
      | some (false, s1, calls) => Outcome.returned (false, { A with Socket := some s1 }, calls)
      | some (true, s1, calls) =>
        Outcome.returned
          (IsOpen T { A with Socket := some s1 }, { A with Socket := some s1 }, calls)

/-- The member function `Disconnect()`: `if (IsOpen()) GetSocket()->Close()`. -/
def Disconnect {σ : Type} (T : Transport σ) (A : Actor σ) : Actor σ × List Call :=
  if IsOpen T A then
    match A.Socket with
    | some s => ({ A with Socket := some (T.Close s) }, [Call.close])
    | none => (A, [])
  else (A, [])

/-! ## SendPacket -/

/-- The engine string `FString`: the text as its `TCHAR` code units (UTF-16). `Len()` is the list length. -/
abbrev FString := List Nat

/-- The engine conversion `TCHAR_TO_ANSI`: one `ANSICHAR` per `TCHAR`; a code unit above 0x7F has no ANSI
character and becomes `?`. -/
def TCHAR_TO_ANSI (str : FString) : List Nat :=
  str.map (fun c => if c ≤ 0x7F then c else 0x3F)

/-- Byte order of the platform: `Memcpy` of an `FPacketHeader` copies the `uint32` as it
lies in memory. -/
inductive ByteOrder where
  | little
  | big
  deriving DecidableEq, Repr

/-- The four bytes of the `uint32` field of an `FPacketHeader` in memory. -/
def headerBytes (bo : ByteOrder) (PacketBodyLength : Nat) : List Nat :=
  match bo with
  | ByteOrder.little =>
    [PacketBodyLength % 256, PacketBodyLength / 256 % 256,
     PacketBodyLength / 65536 % 256, PacketBodyLength / 16777216 % 256]
  | ByteOrder.big =>
    [PacketBodyLength / 16777216 % 256, PacketBodyLength / 65536 % 256,
     PacketBodyLength / 256 % 256, PacketBodyLength % 256]

/-- The copy `FMemory::Memcpy(Dest + off, Src, Count)` into the allocated bytes `Dest`; `none` when
the copy would leave the destination block or read past the source. -/
def Memcpy (Dest : List Nat) (off : Nat) (Src : List Nat) (Count : Nat) : Option (List Nat) :=
  if off + Count ≤ Dest.length ∧ Count ≤ Src.length then
    some (Dest.take off ++ Src.take Count ++ Dest.drop (off + Count))
  else none

/-- The part of `SendPacket` from `uint32 WriteOffset = 0` to the last `WriteOffset +=`:
fill the header, copy header and body into the buffer memory. Gives the memory afterwards
and the final `WriteOffset`. -/
def SendPacket.encode (bo : ByteOrder) (Data : List Nat) (OutputString : FString) :
    Option (List Nat × Nat) :=
  let WriteOffset0 : Nat := 0
  let PacketBodyLength := toUInt32 (OutputString.length : Int)
  match Memcpy Data WriteOffset0 (headerBytes bo PacketBodyLength) sizeofFPacketHeader with
  | none => none
  | some Data1 =>
    let WriteOffset1 := (WriteOffset0 + sizeofFPacketHeader) % 4294967296
    match Memcpy Data1 WriteOffset1 (TCHAR_TO_ANSI OutputString) PacketBodyLength with
    | none => none
    | some Data2 =>
      let WriteOffset2 := (WriteOffset1 + PacketBodyLength) % 4294967296
      some (Data2, WriteOffset2)

/-- The member function `SendPacket(JsonPacket)`. `Serialize` is `FJsonSerializer::Serialize` into
`OutputString`, `none` when it returns `false`. Returns the `bool` result, the actor
afterwards and the `Send` calls made. -/
def SendPacket {σ ι : Type} (T : Transport σ) (Serialize : ι → Option FString) (bo : ByteOrder)
    (A : Actor σ) (JsonPacket : ι) (fuel : Nat) : Outcome (Bool × Actor σ × List SendCall) :=
  if IsOpen T A = false then Outcome.returned (false, A, [])
  else
    let A1 : Actor σ := { A with DataBuffer := { A.DataBuffer with ArrayNum := 0 } }
    match Serialize JsonPacket with
    | none => Outcome.returned (false, A1, [])
    | some OutputString =>
      match SendPacket.encode bo A1.DataBuffer.Data OutputString with
      | none => Outcome.memoryFault
      | some (Data2, WriteOffset) =>
        match A1.Socket with
        | none => Outcome.memoryFault
        | some s =>
          match SendChunk T Data2 WriteOffset fuel s with
          | none => Outcome.outOfFuel
          | some (ok, s1, calls) =>
            Outcome.returned (ok, { Socket := some s1, DataBuffer := ⟨0, Data2⟩ }, calls)

/-! ## SendClusterEventTo -/

/-- The member function `SendClusterEventTo(Address, Port, Event, bMasterOnly)`. The C++ function returns
`void`; the `Bool` here is `false` on the two paths that log an error (no JSON object,
`SendPacket` returned `false`) and `true` otherwise. `UStructToJsonObject` is the
engine's converter, `none` for a null `TSharedPtr`. -/
def SendClusterEventTo {σ ε ι : Type} (T : Transport σ) (Parse : String → Option Nat)
    (UStructToJsonObject : ε → Option ι) (Serialize : ι → Option FString) (bo : ByteOrder)
    (A : Actor σ) (Address : String) (Port : Int) (Event : ε) (_bMasterOnly : Bool)
    (fuel : Nat) : Outcome (Bool × Actor σ × List Call) :=
  match Connect T Parse A Address Port 1 0 fuel with
  | Outcome.memoryFault => Outcome.memoryFault
  | Outcome.outOfFuel => Outcome.outOfFuel
  | Outcome.returned (_, A1, calls1) =>
    match UStructToJsonObject Event with
    | none => Outcome.returned (false, A1, calls1)
    | some JsonObject =>
      match SendPacket T Serialize bo A1 JsonObject fuel with
      | Outcome.memoryFault => Outcome.memoryFault
      | Outcome.outOfFuel => Outcome.outOfFuel
      | Outcome.returned (bResult, A2, calls2) =>
        Outcome.returned (bResult, A2, calls1 ++ calls2.map Call.send)

/-! ## The receiving side and UTF-8, for comparison -/

/-- The unsigned 32-bit integer that four bytes stand for in byte order `bo`. -/
def decodeUInt32 (bo : ByteOrder) (bytes : List Nat) : Option Nat :=
  match bo, bytes with
  | ByteOrder.little, [b0, b1, b2, b3] => some (b0 + 256 * b1 + 65536 * b2 + 16777216 * b3)
  | ByteOrder.big, [b0, b1, b2, b3] => some (16777216 * b0 + 65536 * b1 + 256 * b2 + b3)
  | _, _ => none

/-- The UTF-8 bytes of one Unicode code point. -/
def utf8OfCodePoint (c : Nat) : List Nat :=
  if c < 0x80 then [c]
  else if c < 0x800 then [0xC0 + c / 64, 0x80 + c % 64]
  else if c < 0x10000 then [0xE0 + c / 4096, 0x80 + c / 64 % 64, 0x80 + c % 64]
  else [0xF0 + c / 262144, 0x80 + c / 4096 % 64, 0x80 + c / 64 % 64, 0x80 + c % 64]

/-- The code points of a UTF-16 text: a high surrogate followed by a low surrogate is one
code point, every other code unit stands for itself. -/
def codePoints : FString → List Nat
  | [] => []
  | [c] => [c]
  | hi :: lo :: rest =>
    if 0xD800 ≤ hi ∧ hi < 0xDC00 ∧ 0xDC00 ≤ lo ∧ lo < 0xE000 then
      (0x10000 + (hi - 0xD800) * 1024 + (lo - 0xDC00)) :: codePoints rest
    else hi :: codePoints (lo :: rest)

/-- The UTF-8 encoding of a text, as the specification words the frame body. -/
def utf8Encode (str : FString) : List Nat :=
  (codePoints str).flatMap utf8OfCodePoint

/-! ## Traces and transports used to state and exercise the theorems -/

/-- The calls of `j + 1` connection attempts with a sleep after each but the last. -/
def attemptsTrace (ip : Nat) (port : Int) (seconds : Rat) : Nat → List Call
  | 0 => [Call.connect ip port]
  | j + 1 => Call.connect ip port :: Call.sleep seconds :: attemptsTrace ip port seconds j

/-- The socket state in which attempt number `i` (counted from 0) of a connection loop
started in state `s` is made, when all earlier attempts failed: each failed attempt is
followed by one sleep. -/
def stateBeforeAttempt {σ : Type} (T : Transport σ) (ip : Nat) (port : Int) (seconds : Rat) :
    σ → Nat → σ
  | s, 0 => s
  | s, i + 1 => stateBeforeAttempt T ip port seconds (T.Sleep seconds (T.Connect s ip port).2) i

/-- A test transport whose state is the connected flag: `Connect` succeeds on a socket that
is not connected and fails on one that already is, `Send` takes everything while
connected, `Close` disconnects. -/
def streamTransport : Transport Bool where
  Connect := fun c _ _ => if c then (false, c) else (true, true)
  Send := fun c _ count => if c then ⟨true, (min count 2147483647 : Nat), c⟩ else ⟨false, 0, c⟩
  Close := fun _ => false
  Connected := fun c => c
  Sleep := fun _ c => c

/-- A test transport whose `Connect` always fails; the state counts the attempts. -/
def refusingTransport : Transport Nat where
  Connect := fun s _ _ => (false, s + 1)
  Send := fun s _ _ => ⟨false, 0, s⟩
  Close := fun s => s
  Connected := fun _ => false
  Sleep := fun _ s => s

/-- A test transport whose state is the number of connection attempts that will still
fail and the connected flag. -/
def flakyTransport : Transport (Nat × Bool) where
  Connect := fun s _ _ => if s.1 = 0 then (true, (0, true)) else (false, (s.1 - 1, s.2))
  Send := fun s _ count => ⟨s.2, (min count 2147483647 : Nat), s⟩
  Close := fun s => (s.1, false)
  Connected := fun s => s.2
  Sleep := fun _ s => s

/-- A test address parser that accepts the loopback address only. -/
def loopbackParse (InAddr : String) : Option Nat :=
  if InAddr = "127.0.0.1" then some 2130706433 else none

/-! ## Facts about the machine-integer conversions -/

theorem toUInt32_of_pos_int32 {v : Int} (hv : IsInt32 v) (hpos : 0 < v) :
    (toUInt32 v : Int) = v := by
  unfold IsInt32 at hv
  unfold toUInt32
  have h1 : v % 4294967296 = v := Int.emod_eq_of_lt (by omega) (by omega)
  rw [h1]
  omega

theorem toUInt32_natCast {n : Nat} (hn : n < 4294967296) : toUInt32 (n : Int) = n := by
  unfold toUInt32
  have h1 : (n : Int) % 4294967296 = n := Int.emod_eq_of_lt (by omega) (by omega)
  rw [h1]
  omega

/-! ## SendChunk: one step of the loop -/

theorem SendChunk.loop_done {σ : Type} (T : Transport σ) (buf : List Nat) (n fuel total : Nat)
    (s : σ) (h : ¬ total < n) : SendChunk.loop T buf n fuel total s = some (true, s, []) := by
  cases fuel <;> simp [SendChunk.loop, h]

theorem SendChunk.loop_send_failed {σ : Type} (T : Transport σ) (buf : List Nat)
    (n fuel total : Nat) (s : σ) (h : total < n)
    (hok : (T.Send s (buf.drop total) ((n - total) % 4294967296)).ok = false) :
    SendChunk.loop T buf n (fuel + 1) total s =
      some (false, (T.Send s (buf.drop total) ((n - total) % 4294967296)).next,
        [⟨total, (n - total) % 4294967296, false,
          (T.Send s (buf.drop total) ((n - total) % 4294967296)).BytesSent⟩]) := by
  simp [SendChunk.loop, h, hok]

theorem SendChunk.loop_bad_count {σ : Type} (T : Transport σ) (buf : List Nat)
    (n fuel total : Nat) (s : σ) (h : total < n)
    (hok : (T.Send s (buf.drop total) ((n - total) % 4294967296)).ok = true)
    (hbad : (T.Send s (buf.drop total) ((n - total) % 4294967296)).BytesSent ≤ 0 ∨
      toUInt32 (T.Send s (buf.drop total) ((n - total) % 4294967296)).BytesSent
        > (n - total) % 4294967296) :
    SendChunk.loop T buf n (fuel + 1) total s =
      some (false, (T.Send s (buf.drop total) ((n - total) % 4294967296)).next,
        [⟨total, (n - total) % 4294967296, true,
          (T.Send s (buf.drop total) ((n - total) % 4294967296)).BytesSent⟩]) := by
  simp only [SendChunk.loop, h, hok, if_true]
  rw [if_neg (by simp), if_pos hbad]

theorem SendChunk.loop_advance {σ : Type} (T : Transport σ) (buf : List Nat)
    (n fuel total : Nat) (s : σ) (h : total < n)
    (hok : (T.Send s (buf.drop total) ((n - total) % 4294967296)).ok = true)
    (hgood : ¬ ((T.Send s (buf.drop total) ((n - total) % 4294967296)).BytesSent ≤ 0 ∨
      toUInt32 (T.Send s (buf.drop total) ((n - total) % 4294967296)).BytesSent
        > (n - total) % 4294967296)) :
    SendChunk.loop T buf n (fuel + 1) total s =
      (SendChunk.loop T buf n fuel
        ((total + toUInt32 (T.Send s (buf.drop total) ((n - total) % 4294967296)).BytesSent)
          % 4294967296)
        (T.Send s (buf.drop total) ((n - total) % 4294967296)).next).map
        (fun res => (res.1, res.2.1,
          (⟨total, (n - total) % 4294967296, true,
            (T.Send s (buf.drop total) ((n - total) % 4294967296)).BytesSent⟩ : SendCall)
            :: res.2.2)) := by
  simp only [SendChunk.loop, h, hok, if_true]
  rw [if_neg (by simp), if_neg hgood]

/-! ## SendChunk against an arbitrary transport -/

theorem SendChunk.loop_fail_fast {σ : Type} (T : Transport σ) (hT : T.Int32Replies)
    (buf : List Nat) (n : Nat) (hn : IsUInt32 n) :
    ∀ (fuel total : Nat) (s : σ), total ≤ n → n - total ≤ fuel →
      ∃ r s1 tr, SendChunk.loop T buf n fuel total s = some (r, s1, tr) ∧
        tr.length ≤ n - total ∧
        ((r = true ∧ ∀ c ∈ tr, ¬ c.Failed) ∨
         (r = false ∧ ∃ good bad, tr = good ++ [bad] ∧ (∀ c ∈ good, ¬ c.Failed) ∧
            bad.Failed)) := by
  unfold IsUInt32 at hn
  intro fuel
  induction fuel with
  | zero =>
    intro total s hle hfuel
    refine ⟨true, s, [], SendChunk.loop_done T buf n 0 total s (by omega), by simp, ?_⟩
    left
    simp
  | succ fuel ih =>
    intro total s hle hfuel
    by_cases hlt : total < n
    · have hleft : (n - total) % 4294967296 = n - total := Nat.mod_eq_of_lt (by omega)
      by_cases hok : (T.Send s (buf.drop total) ((n - total) % 4294967296)).ok = false
      · refine ⟨_, _, _, SendChunk.loop_send_failed T buf n fuel total s hlt hok, ?_, ?_⟩
        · simp; omega
        · right
          exact ⟨rfl, [], _, rfl, by simp, Or.inl rfl⟩
      · have hok1 : (T.Send s (buf.drop total) ((n - total) % 4294967296)).ok = true := by
          simpa using hok
        by_cases hbad : (T.Send s (buf.drop total) ((n - total) % 4294967296)).BytesSent ≤ 0 ∨
            toUInt32 (T.Send s (buf.drop total) ((n - total) % 4294967296)).BytesSent
              > (n - total) % 4294967296
        · refine ⟨_, _, _, SendChunk.loop_bad_count T buf n fuel total s hlt hok1 hbad, ?_, ?_⟩
          · simp; omega
          · right
            refine ⟨rfl, [], _, rfl, by simp, ?_⟩
            right
            rcases hbad with hb | hb
            · exact Or.inl hb
            · by_cases hpos : (T.Send s (buf.drop total) ((n - total) % 4294967296)).BytesSent ≤ 0
              · exact Or.inl hpos
              · right
                have hc := toUInt32_of_pos_int32 (hT s (buf.drop total) ((n - total) % 4294967296))
                  (by omega)
                show ((T.Send s (buf.drop total) ((n - total) % 4294967296)).BytesSent
                  > (((n - total) % 4294967296 : Nat) : Int))
                omega
        · have hstep := SendChunk.loop_advance T buf n fuel total s hlt hok1 hbad
          have hpos : 0 < (T.Send s (buf.drop total) ((n - total) % 4294967296)).BytesSent := by
            by_contra hc
            exact hbad (Or.inl (by omega))
          have hle2 : toUInt32 (T.Send s (buf.drop total) ((n - total) % 4294967296)).BytesSent
              ≤ (n - total) % 4294967296 := by
            by_contra hc
            exact hbad (Or.inr (by omega))
          have hc := toUInt32_of_pos_int32 (hT s (buf.drop total) ((n - total) % 4294967296)) hpos
          have hnew : (total + toUInt32 (T.Send s (buf.drop total)
              ((n - total) % 4294967296)).BytesSent) % 4294967296
              = total + toUInt32 (T.Send s (buf.drop total)
              ((n - total) % 4294967296)).BytesSent := Nat.mod_eq_of_lt (by omega)
          obtain ⟨r, s1, tr, hrun, hlen, hshape⟩ := ih
            ((total + toUInt32 (T.Send s (buf.drop total)
              ((n - total) % 4294967296)).BytesSent) % 4294967296)
            (T.Send s (buf.drop total) ((n - total) % 4294967296)).next
            (by omega) (by omega)
          rw [hrun, Option.map_some'] at hstep
          refine ⟨r, s1, _, hstep, ?_, ?_⟩
          · simp only [List.length_cons]
            omega
          · have hcall : ¬ (⟨total, (n - total) % 4294967296, true,
                (T.Send s (buf.drop total) ((n - total) % 4294967296)).BytesSent⟩ :
                SendCall).Failed := by
              unfold SendCall.Failed
              simp only [Bool.true_eq_false, false_or, not_or]
              constructor
              · omega
              · omega
            rcases hshape with ⟨hr, hall⟩ | ⟨hr, good, bad, htr, hgood, hbadc⟩
            · left
              refine ⟨hr, ?_⟩
              intro c hcmem
              rcases List.mem_cons.mp hcmem with h1 | h1
              · rw [h1]; exact hcall
              · exact hall c h1
            · right
              refine ⟨hr, (⟨total, (n - total) % 4294967296, true,
                (T.Send s (buf.drop total) ((n - total) % 4294967296)).BytesSent⟩ :
                SendCall) :: good, bad, ?_, ?_, hbadc⟩
              · simp [htr]
              · intro c hcmem
                rcases List.mem_cons.mp hcmem with h1 | h1
                · rw [h1]; exact hcall
                · exact hgood c h1
    · refine ⟨true, s, [], SendChunk.loop_done T buf n _ total s hlt, by simp, ?_⟩
      left
      simp

theorem SendChunk.loop_nonempty {σ : Type} (T : Transport σ) (buf : List Nat) (n : Nat)
    (fuel total : Nat) (s : σ) (hlt : total < n) (r : Bool) (s1 : σ) (tr : List SendCall)
    (hrun : SendChunk.loop T buf n fuel total s = some (r, s1, tr)) : tr ≠ [] := by
  cases fuel with
  | zero => simp [SendChunk.loop, hlt] at hrun
  | succ fuel =>
    by_cases hok : (T.Send s (buf.drop total) ((n - total) % 4294967296)).ok = false
    · rw [SendChunk.loop_send_failed T buf n fuel total s hlt hok] at hrun
      simp only [Option.some.injEq, Prod.mk.injEq] at hrun
      rw [← hrun.2.2]
      simp
    · have hok1 : (T.Send s (buf.drop total) ((n - total) % 4294967296)).ok = true := by
        simpa using hok
      by_cases hbad : (T.Send s (buf.drop total) ((n - total) % 4294967296)).BytesSent ≤ 0 ∨
          toUInt32 (T.Send s (buf.drop total) ((n - total) % 4294967296)).BytesSent
            > (n - total) % 4294967296
      · rw [SendChunk.loop_bad_count T buf n fuel total s hlt hok1 hbad] at hrun
        simp only [Option.some.injEq, Prod.mk.injEq] at hrun
        rw [← hrun.2.2]
        simp
      · rw [SendChunk.loop_advance T buf n fuel total s hlt hok1 hbad] at hrun
        cases hrec : SendChunk.loop T buf n fuel
            ((total + toUInt32 (T.Send s (buf.drop total)
              ((n - total) % 4294967296)).BytesSent) % 4294967296)
            (T.Send s (buf.drop total) ((n - total) % 4294967296)).next with
        | none => rw [hrec] at hrun; simp at hrun
        | some res =>
          rw [hrec, Option.map_some'] at hrun
          simp only [Option.some.injEq, Prod.mk.injEq] at hrun
          rw [← hrun.2.2]
          simp

/-! ## SendChunk against a transport that takes at most `k` bytes per call -/

theorem toUInt32_of_nonneg_lt {v : Int} (h0 : 0 ≤ v) (h1 : v < 4294967296) :
    (toUInt32 v : Int) = v := by
  unfold toUInt32
  have h2 : v % 4294967296 = v := Int.emod_eq_of_lt h0 h1
  rw [h2]
  omega

theorem take_append_take_drop (buf : List Nat) (total a n : Nat) (h : total + a ≤ n) :
    (buf.drop total).take a ++ (buf.drop (total + a)).take (n - (total + a))
      = (buf.drop total).take (n - total) := by
  have h1 : n - total = a + (n - (total + a)) := by omega
  have h2 : buf.drop (total + a) = (buf.drop total).drop a := by
    rw [List.drop_drop]
  rw [h1, List.take_add, h2]

theorem SendChunk.loop_delivers {σ : Type} (T : Transport σ) (k : Nat)
    (hT : ∀ s data count, 0 < count →
      (T.Send s data count).ok = true ∧ 1 ≤ (T.Send s data count).BytesSent ∧
        (T.Send s data count).BytesSent ≤ ((min k count : Nat) : Int))
    (buf : List Nat) (n : Nat) (hn : IsUInt32 n) :
    ∀ (fuel total : Nat) (s : σ), total ≤ n → n - total ≤ fuel →
      ∃ s1 tr, SendChunk.loop T buf n fuel total s = some (true, s1, tr) ∧
        ConsecutiveFrom n total tr ∧
        acceptedBytes buf tr = (buf.drop total).take (n - total) ∧
        n - total ≤ k * tr.length ∧ tr.length ≤ n - total ∧ ∀ c ∈ tr, c.offset < n := by
  unfold IsUInt32 at hn
  intro fuel
  induction fuel with
  | zero =>
    intro total s hle hfuel
    refine ⟨s, [], SendChunk.loop_done T buf n 0 total s (by omega), ?_, ?_, ?_, ?_, ?_⟩
    · simp [ConsecutiveFrom]
    · have h0 : n - total = 0 := by omega
      simp [acceptedBytes, h0]
    · omega
    · simp
    · simp
  | succ fuel ih =>
    intro total s hle hfuel
    by_cases hlt : total < n
    · have hleft : (n - total) % 4294967296 = n - total := Nat.mod_eq_of_lt (by omega)
      rw [← hleft] at hfuel
      obtain ⟨hok, h1, hk⟩ := hT s (buf.drop total) ((n - total) % 4294967296) (by omega)
      have hmin : ((min k ((n - total) % 4294967296) : Nat) : Int) ≤ (k : Int) ∧
          ((min k ((n - total) % 4294967296) : Nat) : Int)
            ≤ (((n - total) % 4294967296 : Nat) : Int) := by
        constructor
        · exact_mod_cast Nat.min_le_left _ _
        · exact_mod_cast Nat.min_le_right _ _
      have hc := toUInt32_of_nonneg_lt
        (v := (T.Send s (buf.drop total) ((n - total) % 4294967296)).BytesSent)
        (by omega) (by omega)
      have hgood : ¬ ((T.Send s (buf.drop total) ((n - total) % 4294967296)).BytesSent ≤ 0 ∨
          toUInt32 (T.Send s (buf.drop total) ((n - total) % 4294967296)).BytesSent
            > (n - total) % 4294967296) := by
        omega
      have hstep := SendChunk.loop_advance T buf n fuel total s hlt hok hgood
      have htoNat : toUInt32 (T.Send s (buf.drop total) ((n - total) % 4294967296)).BytesSent
          = (T.Send s (buf.drop total) ((n - total) % 4294967296)).BytesSent.toNat := by
        omega
      have hnew : (total + toUInt32 (T.Send s (buf.drop total)
          ((n - total) % 4294967296)).BytesSent) % 4294967296
          = total + (T.Send s (buf.drop total)
          ((n - total) % 4294967296)).BytesSent.toNat := by
        rw [htoNat]
        exact Nat.mod_eq_of_lt (by omega)
      rw [hnew] at hstep
      obtain ⟨s1, tr, hrun, hcons, hacc, hlow, hup, hoff⟩ := ih
        (total + (T.Send s (buf.drop total) ((n - total) % 4294967296)).BytesSent.toNat)
        (T.Send s (buf.drop total) ((n - total) % 4294967296)).next
        (by omega) (by omega)
      rw [hrun, Option.map_some'] at hstep
      refine ⟨s1, _, hstep, ?_, ?_, ?_, ?_, ?_⟩
      · exact ⟨rfl, hleft, hcons⟩
      · show (buf.drop total).take
            (T.Send s (buf.drop total) ((n - total) % 4294967296)).BytesSent.toNat
            ++ acceptedBytes buf tr = (buf.drop total).take (n - total)
        rw [hacc]
        exact take_append_take_drop buf total _ n (by omega)
      · simp only [List.length_cons, Nat.mul_succ]
        omega
      · simp only [List.length_cons]
        omega
      · intro c hcmem
        rcases List.mem_cons.mp hcmem with h2 | h2
        · rw [h2]; exact hlt
        · exact hoff c h2
    · refine ⟨s, [], SendChunk.loop_done T buf n _ total s hlt, ?_, ?_, ?_, ?_, ?_⟩
      · simp [ConsecutiveFrom]
      · have h0 : n - total = 0 := by omega
        simp [acceptedBytes, h0]
      · omega
      · simp
      · simp

theorem chunkedTransport_accepts (k : Nat) (hk : 1 ≤ k) (s : Nat) (data : List Nat)
    (count : Nat) (hc : 0 < count) :
    ((chunkedTransport k).Send s data count).ok = true ∧
      1 ≤ ((chunkedTransport k).Send s data count).BytesSent ∧
      ((chunkedTransport k).Send s data count).BytesSent ≤ ((min k count : Nat) : Int) := by
  simp only [chunkedTransport, true_and]
  omega

theorem stalledTransport_int32 : stalledTransport.Int32Replies := by
  intro s data count
  simp [stalledTransport, IsInt32]

/-- C1: for every chunk length `n` (a `uint32`) and every `k ≥ 1`, when every `Send` call
succeeds and accepts between 1 and `min k Count` bytes, `SendChunk` returns `true`; its
`Send` calls are consecutive (each starts at the sent-offset and asks for all `n - offset`
remaining bytes); the accepted bytes, concatenated, are the first `n` bytes of the buffer;
the number of calls is at least `ceil(n/k)` and at most `n`; no call is made at an offset
that has reached `n`, and none at all when `n = 0`. -/
theorem SendChunk_delivers_all {σ : Type} (T : Transport σ) (k : Nat) (hk : 1 ≤ k)
    (hT : ∀ s data count, 0 < count →
      (T.Send s data count).ok = true ∧ 1 ≤ (T.Send s data count).BytesSent ∧
        (T.Send s data count).BytesSent ≤ ((min k count : Nat) : Int))
    (buf : List Nat) (n : Nat) (hn : IsUInt32 n) (fuel : Nat) (hfuel : n ≤ fuel) (s : σ) :
    ∃ s1 tr, SendChunk T buf n fuel s = some (true, s1, tr) ∧
      ConsecutiveFrom n 0 tr ∧
      acceptedBytes buf tr = buf.take n ∧
      (n + k - 1) / k ≤ tr.length ∧ tr.length ≤ n ∧
      (∀ c ∈ tr, c.offset < n) ∧
      (n = 0 → tr = []) := by
  obtain ⟨s1, tr, hrun, hcons, hacc, hlow, hup, hoff⟩ :=
    SendChunk.loop_delivers T k hT buf n hn fuel 0 s (Nat.zero_le n) (by omega)
  refine ⟨s1, tr, hrun, hcons, ?_, ?_, ?_, hoff, ?_⟩
  · simpa using hacc
  · have h1 : (n + k - 1) / k < tr.length + 1 := by
      rw [Nat.div_lt_iff_lt_mul (by omega)]
      rw [Nat.add_mul, Nat.mul_comm tr.length k]
      omega
    omega
  · omega
  · intro h0
    have h2 : tr.length = 0 := by omega
    exact List.length_eq_zero.mp h2

theorem SendChunk_delivers_all_witness :
    ∃ s1 tr, SendChunk (chunkedTransport 3) [1, 2, 3, 4, 5, 6, 7] 7 7 0 = some (true, s1, tr) ∧
      ConsecutiveFrom 7 0 tr ∧
      acceptedBytes [1, 2, 3, 4, 5, 6, 7] tr = [1, 2, 3, 4, 5, 6, 7].take 7 ∧
      (7 + 3 - 1) / 3 ≤ tr.length ∧ tr.length ≤ 7 ∧
      (∀ c ∈ tr, c.offset < 7) ∧
      (7 = 0 → tr = []) :=
  SendChunk_delivers_all (chunkedTransport 3) 3 (by decide) (chunkedTransport_accepts 3 (by decide))
    [1, 2, 3, 4, 5, 6, 7] 7 (by decide) 7 (by decide) 0

/-- C2: `SendChunk` is fail-fast. For every transport and every `n > 0` it returns a
result, having made at least one `Send` call. Either it returns `true` and no attempt it
made failed, or it returns `false` and the attempts it made are a run of attempts that did
not fail followed by exactly one failed attempt, after which no call is made. A failed
attempt is one where the call returned `false`, or `BytesSent <= 0`, or `BytesSent` is
greater than the requested length. So it returns `true` if and only if no attempt failed.
Against a transport that always reports 0 bytes it returns `false` after one call. -/
theorem SendChunk_fail_fast {σ : Type} (T : Transport σ) (hT : T.Int32Replies)
    (buf : List Nat) (n : Nat) (hpos : 0 < n) (hn : IsUInt32 n) (fuel : Nat) (hfuel : n ≤ fuel)
    (s : σ) :
    ∃ r s1 tr, SendChunk T buf n fuel s = some (r, s1, tr) ∧ tr ≠ [] ∧
      ((r = true ∧ ∀ c ∈ tr, ¬ c.Failed) ∨
       (r = false ∧ ∃ good bad, tr = good ++ [bad] ∧ (∀ c ∈ good, ¬ c.Failed) ∧ bad.Failed)) ∧
      (r = true ↔ ∀ c ∈ tr, ¬ c.Failed) ∧
      ((∀ s0 data count, (T.Send s0 data count).BytesSent = 0) → r = false ∧ tr.length = 1) := by
  obtain ⟨r, s1, tr, hrun, _, hshape⟩ :=
    SendChunk.loop_fail_fast T hT buf n hn fuel 0 s (Nat.zero_le n) (by omega)
  have hne : tr ≠ [] := SendChunk.loop_nonempty T buf n fuel 0 s hpos r s1 tr hrun
  have hiff : r = true ↔ ∀ c ∈ tr, ¬ c.Failed := by
    rcases hshape with ⟨hr, hall⟩ | ⟨hr, good, bad, htr, _, hbad⟩
    · exact ⟨fun _ => hall, fun _ => hr⟩
    · constructor
      · intro h
        rw [hr] at h
        exact absurd h (by simp)
      · intro hall
        exact absurd hbad (hall bad (by simp [htr]))
  refine ⟨r, s1, tr, hrun, hne, hshape, hiff, ?_⟩
  intro hzero
  have hfailed : ∀ c ∈ tr, c.BytesSent = 0 → c.Failed := by
    intro c _ h0
    exact Or.inr (Or.inl (by omega))
  obtain ⟨fuel1, hf⟩ : ∃ fuel1, fuel = fuel1 + 1 := ⟨fuel - 1, by omega⟩
  subst hf
  by_cases hok : (T.Send s (buf.drop 0) ((n - 0) % 4294967296)).ok = false
  · have h1 := SendChunk.loop_send_failed T buf n fuel1 0 s hpos hok
    rw [h1] at hrun
    simp only [Option.some.injEq, Prod.mk.injEq] at hrun
    refine ⟨hrun.1.symm, ?_⟩
    rw [← hrun.2.2]
    simp
  · have hok1 : (T.Send s (buf.drop 0) ((n - 0) % 4294967296)).ok = true := by
      simpa using hok
    have h1 := SendChunk.loop_bad_count T buf n fuel1 0 s hpos hok1
      (Or.inl (le_of_eq (hzero _ _ _)))
    rw [h1] at hrun
    simp only [Option.some.injEq, Prod.mk.injEq] at hrun
    refine ⟨hrun.1.symm, ?_⟩
    rw [← hrun.2.2]
    simp

theorem SendChunk_fail_fast_witness :
    ∃ r s1 tr, SendChunk stalledTransport [1, 2, 3, 4, 5, 6, 7] 7 7 0 = some (r, s1, tr) ∧
      tr ≠ [] ∧
      ((r = true ∧ ∀ c ∈ tr, ¬ c.Failed) ∨
       (r = false ∧ ∃ good bad, tr = good ++ [bad] ∧ (∀ c ∈ good, ¬ c.Failed) ∧ bad.Failed)) ∧
      (r = true ↔ ∀ c ∈ tr, ¬ c.Failed) ∧
      ((∀ s0 data count, (stalledTransport.Send s0 data count).BytesSent = 0) →
        r = false ∧ tr.length = 1) :=
  SendChunk_fail_fast stalledTransport stalledTransport_int32 [1, 2, 3, 4, 5, 6, 7] 7
    (by decide) (by decide) 7 (by decide) 0

/-! ## Connect -/

theorem wrapInt32_of_int32 {v : Int} (hv : IsInt32 v) : wrapInt32 v = v := by
  unfold IsInt32 at hv
  unfold wrapInt32
  have h : (v + 2147483648) % 4294967296 = v + 2147483648 :=
    Int.emod_eq_of_lt (by omega) (by omega)
  rw [h]
  omega

theorem Connect.loop_exhausts {σ : Type} (T : Transport σ) (ip : Nat) (InPort : Int)
    (TriesAmount : Int) (TryDelay : Rat) (h32 : IsInt32 TriesAmount)
    (hT : ∀ s, (T.Connect s ip InPort).1 = false) :
    ∀ (j fuel : Nat) (TryIdx : Int) (s : σ), 0 ≤ TryIdx → TryIdx + 1 + j = TriesAmount →
      j + 1 ≤ fuel →
      ∃ s1, Connect.loop T ip InPort TriesAmount TryDelay fuel TryIdx s
        = some (false, s1, attemptsTrace ip InPort (TryDelay / 1000) j) := by
  unfold IsInt32 at h32
  intro j
  induction j with
  | zero =>
    intro fuel TryIdx s h0 hsum hfuel
    obtain ⟨fuel1, hf⟩ : ∃ fuel1, fuel = fuel1 + 1 := ⟨fuel - 1, by omega⟩
    subst hf
    have hw : wrapInt32 (TryIdx + 1) = TryIdx + 1 := wrapInt32_of_int32 (by unfold IsInt32; omega)
    have hpos : 0 < TriesAmount := by omega
    have hge : wrapInt32 (TryIdx + 1) ≥ TriesAmount := by omega
    refine ⟨(T.Connect s ip InPort).2, ?_⟩
    simp only [Connect.loop, hT s, if_true, hpos, hge, attemptsTrace]
  | succ j ih =>
    intro fuel TryIdx s h0 hsum hfuel
    obtain ⟨fuel1, hf⟩ : ∃ fuel1, fuel = fuel1 + 1 := ⟨fuel - 1, by omega⟩
    subst hf
    have hw : wrapInt32 (TryIdx + 1) = TryIdx + 1 := wrapInt32_of_int32 (by unfold IsInt32; omega)
    have hpos : 0 < TriesAmount := by omega
    have hlt : ¬ wrapInt32 (TryIdx + 1) ≥ TriesAmount := by omega
    have hlt1 : ¬ TryIdx + 1 ≥ TriesAmount := by omega
    obtain ⟨s1, hrec⟩ := ih fuel1 (TryIdx + 1) (T.Sleep (TryDelay / 1000) (T.Connect s ip InPort).2)
      (by omega) (by omega) (by omega)
    refine ⟨s1, ?_⟩
    simp only [Connect.loop, hT s, if_true, hpos, hw, hlt1, if_false, hrec, Option.map_some',
      attemptsTrace]

theorem attemptsTrace_count_connect (ip : Nat) (port : Int) (seconds : Rat) (j : Nat) :
    (attemptsTrace ip port seconds j).count (Call.connect ip port) = j + 1 := by
  induction j with
  | zero => simp [attemptsTrace]
  | succ j ih => simp [attemptsTrace, ih]

theorem attemptsTrace_count_sleep (ip : Nat) (port : Int) (seconds : Rat) (j : Nat) :
    (attemptsTrace ip port seconds j).count (Call.sleep seconds) = j := by
  induction j with
  | zero => simp [attemptsTrace]
  | succ j ih => simp [attemptsTrace, ih]

theorem attemptsTrace_length (ip : Nat) (port : Int) (seconds : Rat) (j : Nat) :
    (attemptsTrace ip port seconds j).length = 2 * j + 1 := by
  induction j with
  | zero => simp [attemptsTrace]
  | succ j ih => simp [attemptsTrace, ih]; omega

theorem Connect.loop_unlimited {σ : Type} (T : Transport σ) (ip : Nat) (InPort : Int)
    (TryDelay : Rat) :
    ∀ (m fuel : Nat) (TryIdx : Int) (s : σ),
      (∀ i, i < m →
        (T.Connect (stateBeforeAttempt T ip InPort (TryDelay / 1000) s i) ip InPort).1 = false) →
      (T.Connect (stateBeforeAttempt T ip InPort (TryDelay / 1000) s m) ip InPort).1 = true →
      m + 1 ≤ fuel →
      Connect.loop T ip InPort 0 TryDelay fuel TryIdx s
        = some (true, (T.Connect (stateBeforeAttempt T ip InPort (TryDelay / 1000) s m)
            ip InPort).2, attemptsTrace ip InPort (TryDelay / 1000) m) := by
  intro m
  induction m with
  | zero =>
    intro fuel TryIdx s _ hsucc hfuel
    obtain ⟨fuel1, hf⟩ : ∃ fuel1, fuel = fuel1 + 1 := ⟨fuel - 1, by omega⟩
    subst hf
    simp only [stateBeforeAttempt] at hsucc
    simp [Connect.loop, hsucc, attemptsTrace, stateBeforeAttempt]
  | succ m ih =>
    intro fuel TryIdx s hfail hsucc hfuel
    obtain ⟨fuel1, hf⟩ : ∃ fuel1, fuel = fuel1 + 1 := ⟨fuel - 1, by omega⟩
    subst hf
    have h0 := hfail 0 (by omega)
    simp only [stateBeforeAttempt] at h0 hsucc
    have hrec := ih fuel1 TryIdx (T.Sleep (TryDelay / 1000) (T.Connect s ip InPort).2)
      (fun i hi => by
        have := hfail (i + 1) (by omega)
        simpa only [stateBeforeAttempt] using this)
      hsucc (by omega)
    simp only [Connect.loop, h0, if_true, lt_self_iff_false, if_false, hrec, Option.map_some',
      attemptsTrace, stateBeforeAttempt]

/-- C3: for every address the parser accepts and every `TriesAmount = n > 0` (an `int32`),
`Connect` on a socket whose `Connect` call always fails returns `false` after exactly `n`
connection attempts and `n - 1` sleeps of `TryDelay / 1000` seconds, one between each
pair of consecutive attempts and none after the last. -/
theorem Connect_retry_exhausted {σ : Type} (T : Transport σ) (Parse : String → Option Nat)
    (A : Actor σ) (s : σ) (hs : A.Socket = some s) (InAddr : String) (ip : Nat)
    (hparse : Parse InAddr = some ip) (InPort : Int) (TriesAmount : Int)
    (hpos : 0 < TriesAmount) (h32 : IsInt32 TriesAmount) (TryDelay : Rat)
    (hT : ∀ s0, (T.Connect s0 ip InPort).1 = false) (fuel : Nat)
    (hfuel : TriesAmount.toNat ≤ fuel) :
    ∃ A1 calls, Connect T Parse A InAddr InPort TriesAmount TryDelay fuel
        = Outcome.returned (false, A1, calls) ∧
      calls = attemptsTrace ip InPort (TryDelay / 1000) (TriesAmount.toNat - 1) ∧
      calls.count (Call.connect ip InPort) = TriesAmount.toNat ∧
      calls.count (Call.sleep (TryDelay / 1000)) = TriesAmount.toNat - 1 ∧
      calls.length = 2 * TriesAmount.toNat - 1 := by
  obtain ⟨s1, hloop⟩ := Connect.loop_exhausts T ip InPort TriesAmount TryDelay h32 hT
    (TriesAmount.toNat - 1) fuel 0 s (le_refl 0) (by omega) (by omega)
  refine ⟨{ A with Socket := some s1 }, _, ?_, rfl, ?_, ?_, ?_⟩
  · simp only [Connect, hparse, hs, hloop]
  · rw [attemptsTrace_count_connect]
    omega
  · rw [attemptsTrace_count_sleep]
  · rw [attemptsTrace_length]
    omega

theorem Connect_retry_exhausted_witness :
    ∃ A1 calls, Connect refusingTransport loopbackParse ⟨some 0, ⟨0, []⟩⟩ "127.0.0.1" 8080 3 500 3
        = Outcome.returned (false, A1, calls) ∧
      calls = attemptsTrace 2130706433 8080 (500 / 1000) ((3 : Int).toNat - 1) ∧
      calls.count (Call.connect 2130706433 8080) = (3 : Int).toNat ∧
      calls.count (Call.sleep (500 / 1000)) = (3 : Int).toNat - 1 ∧
      calls.length = 2 * (3 : Int).toNat - 1 :=
  Connect_retry_exhausted refusingTransport loopbackParse ⟨some 0, ⟨0, []⟩⟩ 0 rfl "127.0.0.1"
    2130706433 (by decide) 8080 3 (by decide) (by decide) 500 (fun _ => rfl) 3 (by decide)

/-- C4: for every address string the parser rejects, and every port, `TriesAmount`,
`TryDelay`, actor state and fuel, `Connect` returns `false` with the actor unchanged and
without any call on the transport: no connection attempt and no sleep. -/
theorem Connect_rejected_address {σ : Type} (T : Transport σ) (Parse : String → Option Nat)
    (A : Actor σ) (InAddr : String) (hparse : Parse InAddr = none) (InPort : Int)
    (TriesAmount : Int) (TryDelay : Rat) (fuel : Nat) :
    Connect T Parse A InAddr InPort TriesAmount TryDelay fuel = Outcome.returned (false, A, []) := by
  simp only [Connect, hparse]

theorem Connect_rejected_address_witness :
    Connect streamTransport loopbackParse ⟨some false, ⟨0, []⟩⟩ "999.1.1.1" 8080 3 500 0
        = Outcome.returned (false, ⟨some false, ⟨0, []⟩⟩, []) ∧
      Connect streamTransport loopbackParse ⟨some false, ⟨0, []⟩⟩ "not-an-ip" 8080 0 500 7
        = Outcome.returned (false, ⟨some false, ⟨0, []⟩⟩, []) :=
  ⟨Connect_rejected_address streamTransport loopbackParse ⟨some false, ⟨0, []⟩⟩ "999.1.1.1"
      (by decide) 8080 3 500 0,
   Connect_rejected_address streamTransport loopbackParse ⟨some false, ⟨0, []⟩⟩ "not-an-ip"
      (by decide) 8080 0 500 7⟩

/-- C10: `TriesAmount = 0` means unlimited retries. For every address the parser accepts
and every `m`, when the socket's `Connect` call fails on the first `m` attempts and
succeeds on attempt `m + 1`, the connection loop ends through the successful call (not
through the attempts limit) after exactly `m + 1` attempts and `m` sleeps, one after each
failed attempt, and `Connect` returns what the connection-state query says then. -/
theorem Connect_unlimited_retries {σ : Type} (T : Transport σ) (Parse : String → Option Nat)
    (A : Actor σ) (s : σ) (hs : A.Socket = some s) (InAddr : String) (ip : Nat)
    (hparse : Parse InAddr = some ip) (InPort : Int) (TryDelay : Rat) (m : Nat)
    (hfail : ∀ i, i < m →
      (T.Connect (stateBeforeAttempt T ip InPort (TryDelay / 1000) s i) ip InPort).1 = false)
    (hsucc :
      (T.Connect (stateBeforeAttempt T ip InPort (TryDelay / 1000) s m) ip InPort).1 = true)
    (fuel : Nat) (hfuel : m + 1 ≤ fuel) :
    ∃ s1 calls,
      s1 = (T.Connect (stateBeforeAttempt T ip InPort (TryDelay / 1000) s m) ip InPort).2 ∧
      Connect.loop T ip InPort 0 TryDelay fuel 0 s = some (true, s1, calls) ∧
      Connect T Parse A InAddr InPort 0 TryDelay fuel
        = Outcome.returned (T.Connected s1, { A with Socket := some s1 }, calls) ∧
      calls = attemptsTrace ip InPort (TryDelay / 1000) m ∧
      calls.count (Call.connect ip InPort) = m + 1 ∧
      calls.count (Call.sleep (TryDelay / 1000)) = m ∧
      calls.length = 2 * m + 1 := by
  have hloop := Connect.loop_unlimited T ip InPort TryDelay m fuel 0 s hfail hsucc hfuel
  refine ⟨_, _, rfl, hloop, ?_, rfl, attemptsTrace_count_connect _ _ _ _,
    attemptsTrace_count_sleep _ _ _ _, attemptsTrace_length _ _ _ _⟩
  simp only [Connect, hparse, hs, hloop, IsOpen]

theorem Connect_unlimited_retries_witness :
    ∃ s1 calls,
      s1 = (flakyTransport.Connect
        (stateBeforeAttempt flakyTransport 2130706433 8080 (500 / 1000) (2, false) 2)
        2130706433 8080).2 ∧
      Connect.loop flakyTransport 2130706433 8080 0 500 3 0 (2, false) = some (true, s1, calls) ∧
      Connect flakyTransport loopbackParse ⟨some (2, false), ⟨0, []⟩⟩ "127.0.0.1" 8080 0 500 3
        = Outcome.returned (flakyTransport.Connected s1,
            { (⟨some (2, false), ⟨0, []⟩⟩ : Actor (Nat × Bool)) with Socket := some s1 }, calls) ∧
      calls = attemptsTrace 2130706433 8080 (500 / 1000) 2 ∧
      calls.count (Call.connect 2130706433 8080) = 2 + 1 ∧
      calls.count (Call.sleep (500 / 1000)) = 2 ∧
      calls.length = 2 * 2 + 1 :=
  Connect_unlimited_retries flakyTransport loopbackParse ⟨some (2, false), ⟨0, []⟩⟩ (2, false) rfl
    "127.0.0.1" 2130706433 (by decide) 8080 500 2
    (by intro i hi; interval_cases i <;> rfl) rfl 3 (by decide)

/-! ## The connection state machine -/

theorem Connect_true_isOpen {σ : Type} (T : Transport σ) (Parse : String → Option Nat)
    (A : Actor σ) (InAddr : String) (InPort : Int) (TriesAmount : Int) (TryDelay : Rat)
    (fuel : Nat) (A1 : Actor σ) (calls : List Call)
    (h : Connect T Parse A InAddr InPort TriesAmount TryDelay fuel
      = Outcome.returned (true, A1, calls)) : IsOpen T A1 = true := by
  unfold Connect at h
  cases hp : Parse InAddr with
  | none => simp [hp] at h
  | some ip =>
    cases hs : A.Socket with
    | none => simp [hp, hs] at h
    | some s =>
      cases hl : Connect.loop T ip InPort TriesAmount TryDelay fuel 0 s with
      | none => simp [hp, hs, hl] at h
      | some res =>
        obtain ⟨b, s1, tr⟩ := res
        cases b with
        | false => simp [hp, hs, hl] at h
        | true =>
          simp only [hp, hs, hl, Outcome.returned.injEq, Prod.mk.injEq] at h
          rw [← h.2.1]
          exact h.1

theorem Disconnect_calls {σ : Type} (T : Transport σ) (A : Actor σ) :
    (Disconnect T A).2 = if IsOpen T A = true then [Call.close] else [] := by
  unfold Disconnect
  cases hs : A.Socket with
  | none => simp [IsOpen, hs]
  | some s =>
    by_cases hc : T.Connected s = true
    · simp [IsOpen, hs, hc]
    · simp [IsOpen, hs, hc]

theorem Disconnect_open {σ : Type} (T : Transport σ) (A : Actor σ) (s : σ)
    (hs : A.Socket = some s) (hc : T.Connected s = true) :
    Disconnect T A = ({ A with Socket := some (T.Close s) }, [Call.close]) := by
  simp [Disconnect, IsOpen, hs, hc]

theorem Disconnect_not_open {σ : Type} (T : Transport σ) (A : Actor σ)
    (h : IsOpen T A = false) : Disconnect T A = (A, []) := by
  simp [Disconnect, h]

theorem IsOpen_after_Disconnect {σ : Type} (T : Transport σ)
    (hclose : ∀ s, T.Connected (T.Close s) = false) (A : Actor σ) :
    IsOpen T (Disconnect T A).1 = false := by
  cases hs : A.Socket with
  | none =>
    have h : IsOpen T A = false := by simp [IsOpen, hs]
    rw [Disconnect_not_open T A h]
    exact h
  | some s =>
    by_cases hc : T.Connected s = true
    · rw [Disconnect_open T A s hs hc]
      simp [IsOpen, hclose]
    · have h : IsOpen T A = false := by simpa [IsOpen, hs] using hc
      rw [Disconnect_not_open T A h]
      exact h

/-- C9: the connection state machine, for a socket that is not connected when the engine
creates it and not connected after `Close`. `IsOpen()` is false on the constructed actor
and after `BeginPlay`, before any `Connect`. Whenever `Connect` returns `true`, `IsOpen()`
is true on return, and when the connection loop ends through a successful `Connect` call
the result is the connection-state query, not that call's return value. `Disconnect`
calls `Close` exactly when `IsOpen()` is true, on the actor's socket, and `IsOpen()` is
false afterwards. `Disconnect` on a session that is not open makes no call and leaves the
actor unchanged, so a second `Disconnect` does nothing. -/
theorem connection_state_machine {σ : Type} (T : Transport σ) (NewSocket : Option σ)
    (hfresh : ∀ s, NewSocket = some s → T.Connected s = false)
    (hclose : ∀ s, T.Connected (T.Close s) = false) :
    IsOpen T (Actor.constructed : Actor σ) = false ∧
    (∀ garbage, IsOpen T (BeginPlay NewSocket garbage Actor.constructed) = false) ∧
    (∀ Parse A InAddr InPort TriesAmount TryDelay fuel A1 calls,
      Connect T Parse A InAddr InPort TriesAmount TryDelay fuel
        = Outcome.returned (true, A1, calls) → IsOpen T A1 = true) ∧
    (∀ Parse (A : Actor σ) InAddr InPort TriesAmount TryDelay fuel ip s s1 calls,
      Parse InAddr = some ip → A.Socket = some s →
      Connect.loop T ip InPort TriesAmount TryDelay fuel 0 s = some (true, s1, calls) →
      Connect T Parse A InAddr InPort TriesAmount TryDelay fuel
        = Outcome.returned (T.Connected s1, { A with Socket := some s1 }, calls)) ∧
    (∀ A, (Disconnect T A).2 = if IsOpen T A = true then [Call.close] else []) ∧
    (∀ (A : Actor σ) s, A.Socket = some s → T.Connected s = true →
      Disconnect T A = ({ A with Socket := some (T.Close s) }, [Call.close])) ∧
    (∀ A, IsOpen T (Disconnect T A).1 = false) ∧
    (∀ A, IsOpen T A = false → Disconnect T A = (A, [])) ∧
    (∀ A, Disconnect T (Disconnect T A).1 = ((Disconnect T A).1, [])) := by
  refine ⟨rfl, ?_, ?_, ?_, Disconnect_calls T, Disconnect_open T,
    IsOpen_after_Disconnect T hclose, Disconnect_not_open T, ?_⟩
  · intro garbage
    cases hn : NewSocket with
    | none => simp [IsOpen, BeginPlay]
    | some s => simp [IsOpen, BeginPlay, hfresh s hn]
  · intro Parse A InAddr InPort TriesAmount TryDelay fuel A1 calls h
    exact Connect_true_isOpen T Parse A InAddr InPort TriesAmount TryDelay fuel A1 calls h
  · intro Parse A InAddr InPort TriesAmount TryDelay fuel ip s s1 calls hp hs hl
    simp only [Connect, hp, hs, hl, IsOpen]
  · intro A
    exact Disconnect_not_open T _ (IsOpen_after_Disconnect T hclose A)

theorem connection_state_machine_witness :
    IsOpen streamTransport (Actor.constructed : Actor Bool) = false ∧
    (∀ garbage, IsOpen streamTransport (BeginPlay (some false) garbage Actor.constructed) = false) ∧
    (∀ Parse A InAddr InPort TriesAmount TryDelay fuel A1 calls,
      Connect streamTransport Parse A InAddr InPort TriesAmount TryDelay fuel
        = Outcome.returned (true, A1, calls) → IsOpen streamTransport A1 = true) ∧
    (∀ Parse (A : Actor Bool) InAddr InPort TriesAmount TryDelay fuel ip s s1 calls,
      Parse InAddr = some ip → A.Socket = some s →
      Connect.loop streamTransport ip InPort TriesAmount TryDelay fuel 0 s
        = some (true, s1, calls) →
      Connect streamTransport Parse A InAddr InPort TriesAmount TryDelay fuel
        = Outcome.returned (streamTransport.Connected s1, { A with Socket := some s1 }, calls)) ∧
    (∀ A, (Disconnect streamTransport A).2
      = if IsOpen streamTransport A = true then [Call.close] else []) ∧
    (∀ (A : Actor Bool) s, A.Socket = some s → streamTransport.Connected s = true →
      Disconnect streamTransport A
        = ({ A with Socket := some (streamTransport.Close s) }, [Call.close])) ∧
    (∀ A, IsOpen streamTransport (Disconnect streamTransport A).1 = false) ∧
    (∀ A, IsOpen streamTransport A = false → Disconnect streamTransport A = (A, [])) ∧
    (∀ A, Disconnect streamTransport (Disconnect streamTransport A).1
      = ((Disconnect streamTransport A).1, [])) :=
  connection_state_machine streamTransport (some false)
    (fun s h => by cases h; rfl) (fun _ => rfl)

/-- A run of the state machine on the test transport: open after a successful `Connect`,
closed after `Disconnect`. -/
theorem Connect_then_Disconnect_example :
    Connect streamTransport loopbackParse ⟨some false, ⟨0, []⟩⟩ "127.0.0.1" 8080 1 0 1
      = Outcome.returned (true, ⟨some true, ⟨0, []⟩⟩, [Call.connect 2130706433 8080]) ∧
    IsOpen streamTransport ⟨some true, ⟨0, []⟩⟩ = true ∧
    (Disconnect streamTransport ⟨some true, ⟨0, []⟩⟩).2 = [Call.close] ∧
    IsOpen streamTransport (Disconnect streamTransport ⟨some true, ⟨0, []⟩⟩).1 = false := by
  refine ⟨?_, rfl, rfl, rfl⟩
  simp [Connect, loopbackParse, Connect.loop, streamTransport, IsOpen]

/-! ## SendPacket: the frame written into the buffer -/

theorem headerBytes_length (bo : ByteOrder) (n : Nat) : (headerBytes bo n).length = 4 := by
  cases bo <;> rfl

theorem decodeUInt32_headerBytes (bo : ByteOrder) (n : Nat) (hn : IsUInt32 n) :
    decodeUInt32 bo (headerBytes bo n) = some n := by
  unfold IsUInt32 at hn
  cases bo
  · simp only [headerBytes, decodeUInt32, Option.some.injEq]
    omega
  · simp only [headerBytes, decodeUInt32, Option.some.injEq]
    omega

theorem TCHAR_TO_ANSI_length (str : FString) : (TCHAR_TO_ANSI str).length = str.length := by
  simp [TCHAR_TO_ANSI]

theorem SendPacket.encode_fits (bo : ByteOrder) (Data : List Nat) (str : FString)
    (hfit : sizeofFPacketHeader + str.length ≤ Data.length)
    (hlen : IsInt32 (str.length : Int)) :
    SendPacket.encode bo Data str
      = some (headerBytes bo str.length ++ TCHAR_TO_ANSI str
          ++ Data.drop (sizeofFPacketHeader + str.length), sizeofFPacketHeader + str.length) := by
  unfold IsInt32 at hlen
  unfold sizeofFPacketHeader at hfit ⊢
  have hcast : toUInt32 (str.length : Int) = str.length := toUInt32_natCast (by omega)
  have hh := headerBytes_length bo str.length
  have ha := TCHAR_TO_ANSI_length str
  have h1 : Memcpy Data 0 (headerBytes bo str.length) 4
      = some (headerBytes bo str.length ++ Data.drop 4) := by
    unfold Memcpy
    rw [if_pos ⟨by omega, by omega⟩]
    simp [List.take_of_length_le (le_of_eq hh)]
  have h2 : Memcpy (headerBytes bo str.length ++ Data.drop 4) 4 (TCHAR_TO_ANSI str) str.length
      = some (headerBytes bo str.length ++ TCHAR_TO_ANSI str ++ Data.drop (4 + str.length)) := by
    unfold Memcpy
    rw [if_pos ⟨by simp [hh]; omega, by omega⟩]
    have e1 : (headerBytes bo str.length ++ Data.drop 4).take 4 = headerBytes bo str.length := by
      rw [List.take_append_of_le_length (by omega)]
      exact List.take_of_length_le (by omega)
    have e2 : (headerBytes bo str.length ++ Data.drop 4).drop (4 + str.length)
        = Data.drop (4 + str.length) := by
      rw [List.drop_append_eq_append_drop]
      rw [List.drop_of_length_le (by omega), hh, List.drop_drop]
      simp
    have e3 : (TCHAR_TO_ANSI str).take str.length = TCHAR_TO_ANSI str :=
      List.take_of_length_le (by omega)
    rw [e1, e2, e3]
  have hmod : (4 + str.length) % 4294967296 = 4 + str.length := Nat.mod_eq_of_lt (by omega)
  simp only [SendPacket.encode, sizeofFPacketHeader, hcast, h1, Nat.zero_add, Nat.mod_eq_of_lt
    (show (4 : Nat) < 4294967296 by decide), h2, hmod]

theorem SendPacket.encode_oversized (bo : ByteOrder) (Data : List Nat) (str : FString)
    (hbig : Data.length < sizeofFPacketHeader + str.length)
    (hlen : IsInt32 (str.length : Int)) :
    SendPacket.encode bo Data str = none := by
  unfold IsInt32 at hlen
  unfold sizeofFPacketHeader at hbig
  have hcast : toUInt32 (str.length : Int) = str.length := toUInt32_natCast (by omega)
  have hh := headerBytes_length bo str.length
  by_cases h4 : 4 ≤ Data.length
  · have h1 : Memcpy Data 0 (headerBytes bo str.length) 4
        = some (headerBytes bo str.length ++ Data.drop 4) := by
      unfold Memcpy
      rw [if_pos ⟨by omega, by omega⟩]
      simp [List.take_of_length_le (le_of_eq hh)]
    have h2 : Memcpy (headerBytes bo str.length ++ Data.drop 4) 4 (TCHAR_TO_ANSI str) str.length
        = none := by
      unfold Memcpy
      rw [if_neg]
      simp only [List.length_append, hh, List.length_drop, not_and_or]
      left
      omega
    simp only [SendPacket.encode, sizeofFPacketHeader, hcast, h1, Nat.zero_add, Nat.mod_eq_of_lt
      (show (4 : Nat) < 4294967296 by decide), h2]
  · have h1 : Memcpy Data 0 (headerBytes bo str.length) 4 = none := by
      unfold Memcpy
      rw [if_neg]
      simp only [not_and_or]
      left
      omega
    simp only [SendPacket.encode, sizeofFPacketHeader, hcast, h1]

theorem SendPacket_open {σ ι : Type} (T : Transport σ) (Serialize : ι → Option FString)
    (bo : ByteOrder) (A : Actor σ) (JsonPacket : ι) (fuel : Nat) (s : σ) (str : FString)
    (hs : A.Socket = some s) (hopen : T.Connected s = true)
    (hser : Serialize JsonPacket = some str) :
    SendPacket T Serialize bo A JsonPacket fuel =
      match SendPacket.encode bo A.DataBuffer.Data str with
      | none => Outcome.memoryFault
      | some (frame, WriteOffset) =>
        match SendChunk T frame WriteOffset fuel s with
        | none => Outcome.outOfFuel
        | some (ok, s1, calls) =>
          Outcome.returned (ok, { Socket := some s1, DataBuffer := ⟨0, frame⟩ }, calls) := by
  have ho : IsOpen T A = true := by simp [IsOpen, hs, hopen]
  simp only [SendPacket, ho, hser, hs]
  simp

theorem codePoints_ascii : ∀ (str : FString), (∀ c ∈ str, c ≤ 0x7F) → codePoints str = str
  | [], _ => rfl
  | [_], _ => rfl
  | hi :: lo :: rest, h => by
    have hhi : hi ≤ 0x7F := h hi (by simp)
    have hrest : codePoints (lo :: rest) = lo :: rest :=
      codePoints_ascii (lo :: rest) (fun c hc => h c (List.mem_cons_of_mem hi hc))
    rw [codePoints, if_neg (by omega), hrest]

theorem utf8Encode_ascii (str : FString) (h : ∀ c ∈ str, c ≤ 0x7F) : utf8Encode str = str := by
  unfold utf8Encode
  rw [codePoints_ascii str h]
  induction str with
  | nil => rfl
  | cons c rest ih =>
    have hc : c ≤ 0x7F := h c (by simp)
    have hr := ih (fun d hd => h d (List.mem_cons_of_mem c hd))
    simp only [List.flatMap_cons, hr]
    simp only [utf8OfCodePoint]
    rw [if_pos (by omega)]
    rfl

theorem TCHAR_TO_ANSI_ascii (str : FString) (h : ∀ c ∈ str, c ≤ 0x7F) :
    TCHAR_TO_ANSI str = str := by
  unfold TCHAR_TO_ANSI
  induction str with
  | nil => rfl
  | cons c rest ih =>
    have hc : c ≤ 0x7F := h c (by simp)
    simp only [List.map_cons, if_pos hc, ih (fun d hd => h d (List.mem_cons_of_mem c hd))]

theorem frame_parts (header body rest : List Nat) (n : Nat) (hh : header.length = 4)
    (hb : body.length = n) :
    (header ++ body ++ rest).take (4 + n) = header ++ body ∧
      (header ++ body ++ rest).take 4 = header ∧
      ((header ++ body ++ rest).drop 4).take n = body := by
  refine ⟨?_, ?_, ?_⟩
  · rw [List.take_append_of_le_length (by simp [hh, hb])]
    exact List.take_of_length_le (by simp [hh, hb])
  · rw [List.append_assoc, List.take_append_of_le_length (by omega)]
    exact List.take_of_length_le (by omega)
  · rw [List.append_assoc, List.drop_append_eq_append_drop, List.drop_of_length_le (by omega), hh]
    simp only [Nat.sub_self, List.drop_zero, List.nil_append]
    rw [List.take_append_of_le_length (by omega)]
    exact List.take_of_length_le (by omega)

/-- C7: for every body that fits the buffer, the frame `SendPacket` builds is
`sizeof(FPacketHeader) = 4` header bytes immediately followed by the body bytes, one per
character of the text, with no padding; `SendChunk` is called on that buffer with
`ChunkSize = 4 + len`; and the 4 header bytes, read as an unsigned 32-bit integer in the
byte order they were written in, give `len`. -/
theorem SendPacket_frame_layout {σ ι : Type} (T : Transport σ) (Serialize : ι → Option FString)
    (bo : ByteOrder) (A : Actor σ) (JsonPacket : ι) (fuel : Nat) (s : σ) (str : FString)
    (hs : A.Socket = some s) (hopen : T.Connected s = true)
    (hser : Serialize JsonPacket = some str)
    (hfit : sizeofFPacketHeader + str.length ≤ A.DataBuffer.Data.length)
    (hlen : IsInt32 (str.length : Int)) :
    ∃ frame, SendPacket.encode bo A.DataBuffer.Data str
        = some (frame, sizeofFPacketHeader + str.length) ∧
      sizeofFPacketHeader = 4 ∧
      (TCHAR_TO_ANSI str).length = str.length ∧
      frame.take (sizeofFPacketHeader + str.length) = headerBytes bo str.length ++ TCHAR_TO_ANSI str ∧
      (frame.drop sizeofFPacketHeader).take str.length = TCHAR_TO_ANSI str ∧
      decodeUInt32 bo (frame.take sizeofFPacketHeader) = some str.length ∧
      SendPacket T Serialize bo A JsonPacket fuel =
        (match SendChunk T frame (sizeofFPacketHeader + str.length) fuel s with
         | none => Outcome.outOfFuel
         | some (ok, s1, calls) =>
           Outcome.returned (ok, { Socket := some s1, DataBuffer := ⟨0, frame⟩ }, calls)) := by
  have henc := SendPacket.encode_fits bo A.DataBuffer.Data str hfit hlen
  have hparts := frame_parts (headerBytes bo str.length) (TCHAR_TO_ANSI str)
    (A.DataBuffer.Data.drop (sizeofFPacketHeader + str.length)) str.length
    (headerBytes_length bo str.length) (TCHAR_TO_ANSI_length str)
  have hu : IsUInt32 str.length := by
    unfold IsInt32 at hlen
    unfold IsUInt32
    omega
  refine ⟨_, henc, rfl, TCHAR_TO_ANSI_length str, hparts.1, hparts.2.2, ?_, ?_⟩
  · show decodeUInt32 bo ((headerBytes bo str.length ++ TCHAR_TO_ANSI str
        ++ A.DataBuffer.Data.drop (sizeofFPacketHeader + str.length)).take 4) = some str.length
    rw [hparts.2.1]
    exact decodeUInt32_headerBytes bo str.length hu
  · rw [SendPacket_open T Serialize bo A JsonPacket fuel s str hs hopen hser, henc]

theorem SendPacket_frame_layout_witness :
    ∃ frame, SendPacket.encode ByteOrder.little (List.replicate 16 0) [104, 105]
        = some (frame, sizeofFPacketHeader + [104, 105].length) ∧
      sizeofFPacketHeader = 4 ∧
      (TCHAR_TO_ANSI [104, 105]).length = [104, 105].length ∧
      frame.take (sizeofFPacketHeader + [104, 105].length)
        = headerBytes ByteOrder.little [104, 105].length ++ TCHAR_TO_ANSI [104, 105] ∧
      (frame.drop sizeofFPacketHeader).take [104, 105].length = TCHAR_TO_ANSI [104, 105] ∧
      decodeUInt32 ByteOrder.little (frame.take sizeofFPacketHeader) = some [104, 105].length ∧
      SendPacket streamTransport (fun (x : FString) => some x) ByteOrder.little
          ⟨some true, ⟨0, List.replicate 16 0⟩⟩ [104, 105] 6 =
        (match SendChunk streamTransport frame (sizeofFPacketHeader + [104, 105].length) 6 true with
         | none => Outcome.outOfFuel
         | some (ok, s1, calls) =>
           Outcome.returned (ok, { Socket := some s1, DataBuffer := ⟨0, frame⟩ }, calls)) :=
  SendPacket_frame_layout streamTransport (fun (x : FString) => some x) ByteOrder.little
    ⟨some true, ⟨0, List.replicate 16 0⟩⟩ [104, 105] 6 true [104, 105] rfl rfl rfl
    (by decide) (by decide)

/-! ## SendPacket: the body is the ANSI conversion, not UTF-8 -/

/-- C5, as stated, fails on a text with a non-ASCII character: for the one-character text
`é` (code unit 0xE9) `SendPacket` writes body length 1 and the body byte `?`, and sends
those 5 bytes, while the UTF-8 encoding of the text is the two bytes 0xC3 0xA9. -/
theorem SendPacket_body_not_utf8 :
    SendPacket streamTransport (fun (x : FString) => some x) ByteOrder.little
        ⟨some true, ⟨0, List.replicate 8 0⟩⟩ [0xE9] 5
      = Outcome.returned (true, ⟨some true, ⟨0, [1, 0, 0, 0, 0x3F, 0, 0, 0]⟩⟩,
          [⟨0, 5, true, 5⟩]) ∧
    decodeUInt32 ByteOrder.little [1, 0, 0, 0] = some 1 ∧
    utf8Encode [0xE9] = [0xC3, 0xA9] ∧
    (utf8Encode [0xE9]).length ≠ 1 ∧
    utf8Encode [0xE9] ≠ [0x3F] := by
  refine ⟨?_, by decide, by decide, by decide, by decide⟩
  rw [SendPacket_open streamTransport (fun (x : FString) => some x) ByteOrder.little
    ⟨some true, ⟨0, List.replicate 8 0⟩⟩ [0xE9] 5 true [0xE9] rfl rfl rfl]
  rw [SendPacket.encode_fits ByteOrder.little (List.replicate 8 0) [0xE9] (by decide) (by decide)]
  decide

/-- C5, amended: for every serialized text that fits the buffer, the body length written
into the header is the number of `TCHAR` code units of the text (`OutputString.Len()`),
and the body bytes after the header are the ANSI conversion of the text, one byte per
code unit. When every character of the text is 7-bit ASCII, the body is exactly the UTF-8
encoding of the text and the body length is its byte length. -/
theorem SendPacket_body_is_ansi (bo : ByteOrder) (Data : List Nat) (str : FString)
    (hfit : sizeofFPacketHeader + str.length ≤ Data.length)
    (hlen : IsInt32 (str.length : Int)) :
    ∃ frame, SendPacket.encode bo Data str = some (frame, sizeofFPacketHeader + str.length) ∧
      decodeUInt32 bo (frame.take sizeofFPacketHeader) = some str.length ∧
      (frame.drop sizeofFPacketHeader).take str.length = TCHAR_TO_ANSI str ∧
      (TCHAR_TO_ANSI str).length = str.length ∧
      ((∀ c ∈ str, c ≤ 0x7F) →
        (frame.drop sizeofFPacketHeader).take str.length = utf8Encode str ∧
        decodeUInt32 bo (frame.take sizeofFPacketHeader) = some (utf8Encode str).length) := by
  have henc := SendPacket.encode_fits bo Data str hfit hlen
  have hparts := frame_parts (headerBytes bo str.length) (TCHAR_TO_ANSI str)
    (Data.drop (sizeofFPacketHeader + str.length)) str.length
    (headerBytes_length bo str.length) (TCHAR_TO_ANSI_length str)
  have hu : IsUInt32 str.length := by
    unfold IsInt32 at hlen
    unfold IsUInt32
    omega
  have hdec : decodeUInt32 bo ((headerBytes bo str.length ++ TCHAR_TO_ANSI str
      ++ Data.drop (sizeofFPacketHeader + str.length)).take sizeofFPacketHeader)
      = some str.length := by
    show decodeUInt32 bo ((headerBytes bo str.length ++ TCHAR_TO_ANSI str
      ++ Data.drop (sizeofFPacketHeader + str.length)).take 4) = some str.length
    rw [hparts.2.1]
    exact decodeUInt32_headerBytes bo str.length hu
  refine ⟨_, henc, hdec, hparts.2.2, TCHAR_TO_ANSI_length str, ?_⟩
  intro hascii
  constructor
  · exact hparts.2.2.trans
      (by rw [TCHAR_TO_ANSI_ascii str hascii, utf8Encode_ascii str hascii])
  · rw [utf8Encode_ascii str hascii]
    exact hdec

theorem SendPacket_body_is_ansi_witness :
    ∃ frame, SendPacket.encode ByteOrder.big (List.replicate 16 0) [104, 105]
        = some (frame, sizeofFPacketHeader + [104, 105].length) ∧
      decodeUInt32 ByteOrder.big (frame.take sizeofFPacketHeader) = some [104, 105].length ∧
      (frame.drop sizeofFPacketHeader).take [104, 105].length = TCHAR_TO_ANSI [104, 105] ∧
      (TCHAR_TO_ANSI [104, 105]).length = [104, 105].length ∧
      ((∀ c ∈ [104, 105], c ≤ 0x7F) →
        (frame.drop sizeofFPacketHeader).take [104, 105].length = utf8Encode [104, 105] ∧
        decodeUInt32 ByteOrder.big (frame.take sizeofFPacketHeader)
          = some (utf8Encode [104, 105]).length) :=
  SendPacket_body_is_ansi ByteOrder.big (List.replicate 16 0) [104, 105] (by decide) (by decide)

/-! ## SendPacket: a frame larger than the buffer -/

theorem SendPacket_oversized {σ ι : Type} (T : Transport σ) (Serialize : ι → Option FString)
    (bo : ByteOrder) (A : Actor σ) (JsonPacket : ι) (fuel : Nat) (s : σ) (str : FString)
    (hs : A.Socket = some s) (hopen : T.Connected s = true)
    (hser : Serialize JsonPacket = some str)
    (hbig : A.DataBuffer.Data.length < sizeofFPacketHeader + str.length)
    (hlen : IsInt32 (str.length : Int)) :
    SendPacket T Serialize bo A JsonPacket fuel = Outcome.memoryFault := by
  rw [SendPacket_open T Serialize bo A JsonPacket fuel s str hs hopen hser,
    SendPacket.encode_oversized bo A.DataBuffer.Data str hbig hlen]

theorem BeginPlay_capacity {σ : Type} (NewSocket : Option σ) (garbage : Nat → Nat) :
    (BeginPlay NewSocket garbage Actor.constructed).DataBuffer.Data.length = PacketBufferSize ∧
      (BeginPlay NewSocket garbage Actor.constructed).DataBuffer.ArrayNum = PacketBufferSize := by
  constructor
  · show ([] ++ (List.range PacketBufferSize).map garbage).length = PacketBufferSize
    rw [List.nil_append, List.length_map, List.length_range]
  · exact Nat.zero_add PacketBufferSize

/-- C6, the code at a frame larger than the buffer: on the actor as `BeginPlay` leaves it
(a buffer of `PacketBufferSize` = 4 MiB), connected, a text of 8 MiB makes `SendPacket`
copy past the end of the buffer. It does not return `false`: there is no size check. -/
theorem SendPacket_oversized_frame_overruns_buffer :
    PacketBufferSize = 4194304 ∧
    PacketBufferSize < sizeofFPacketHeader + (List.replicate 8388608 97).length ∧
    SendPacket streamTransport (fun (x : FString) => some x) ByteOrder.little
        (BeginPlay (some true) (fun _ => 0) Actor.constructed) (List.replicate 8388608 97)
        8388612
      = Outcome.memoryFault := by
  have hlenr : (List.replicate 8388608 97 : FString).length = 8388608 :=
    List.length_replicate _ _
  refine ⟨by decide, ?_, ?_⟩
  · rw [hlenr]
    decide
  · apply SendPacket_oversized streamTransport (fun (x : FString) => some x) ByteOrder.little
      (BeginPlay (some true) (fun _ => 0) Actor.constructed) (List.replicate 8388608 97)
      8388612 true (List.replicate 8388608 97) rfl rfl rfl
    · rw [(BeginPlay_capacity (some true) (fun _ => 0)).1, hlenr]
      decide
    · rw [hlenr]
      unfold IsInt32
      omega

/-! ## SendClusterEventTo -/

theorem Connect_single_attempt {σ : Type} (T : Transport σ) (Parse : String → Option Nat)
    (A : Actor σ) (s : σ) (hs : A.Socket = some s) (InAddr : String) (InPort : Int)
    (TryDelay : Rat) (fuel : Nat) (hfuel : 1 ≤ fuel) :
    ∃ c A1 calls1, Connect T Parse A InAddr InPort 1 TryDelay fuel
        = Outcome.returned (c, A1, calls1) ∧ calls1.length ≤ 1 := by
  obtain ⟨fuel1, hf⟩ : ∃ fuel1, fuel = fuel1 + 1 := ⟨fuel - 1, by omega⟩
  subst hf
  cases hp : Parse InAddr with
  | none => exact ⟨false, A, [], by simp only [Connect, hp], by simp⟩
  | some ip =>
    by_cases hc : (T.Connect s ip InPort).1 = false
    · refine ⟨false, { A with Socket := some (T.Connect s ip InPort).2 },
        [Call.connect ip InPort], ?_, by simp⟩
      have hw : wrapInt32 (0 + 1) ≥ 1 := by decide
      simp only [Connect, hp, hs, Connect.loop, hc, if_true, hw]
      simp
    · refine ⟨T.Connected (T.Connect s ip InPort).2,
        { A with Socket := some (T.Connect s ip InPort).2 }, [Call.connect ip InPort], ?_, by simp⟩
      have hc1 : (T.Connect s ip InPort).1 = true := by simpa using hc
      simp [Connect, hp, hs, Connect.loop, hc1, IsOpen]

/-- C8, as stated, fails: with a socket that is already connected, the `Connect` step of
`SendClusterEventTo` returns `false` (the connect call fails on a connected socket, or the
address does not parse), and the call still writes the whole frame to the transport and
ends without an error. -/
theorem SendClusterEventTo_sends_after_failed_Connect :
    Connect streamTransport loopbackParse ⟨some true, ⟨0, List.replicate 8 0⟩⟩ "127.0.0.1" 8080 1 0 6
      = Outcome.returned (false, ⟨some true, ⟨0, List.replicate 8 0⟩⟩,
          [Call.connect 2130706433 8080]) ∧
    SendClusterEventTo streamTransport loopbackParse (fun (x : FString) => some x)
        (fun (x : FString) => some x) ByteOrder.little ⟨some true, ⟨0, List.replicate 8 0⟩⟩
        "127.0.0.1" 8080 [104, 105] false 6
      = Outcome.returned (true, ⟨some true, ⟨0, [2, 0, 0, 0, 104, 105, 0, 0]⟩⟩,
          [Call.connect 2130706433 8080, Call.send ⟨0, 6, true, 6⟩]) ∧
    Connect streamTransport loopbackParse ⟨some true, ⟨0, List.replicate 8 0⟩⟩ "not-an-ip" 8080 1 0 6
      = Outcome.returned (false, ⟨some true, ⟨0, List.replicate 8 0⟩⟩, []) ∧
    SendClusterEventTo streamTransport loopbackParse (fun (x : FString) => some x)
        (fun (x : FString) => some x) ByteOrder.little ⟨some true, ⟨0, List.replicate 8 0⟩⟩
        "not-an-ip" 8080 [104, 105] false 6
      = Outcome.returned (true, ⟨some true, ⟨0, [2, 0, 0, 0, 104, 105, 0, 0]⟩⟩,
          [Call.send ⟨0, 6, true, 6⟩]) := by
  decide

/-- C8, amended: `SendClusterEventTo` returns no value and does not look at the result of
its `Connect` step (one attempt, no sleep); `SendPacket` checks `IsOpen()` instead. The
call ends in failure when the event has no JSON object, when the connection is not open
after the `Connect` step, or when serialization fails, and in these cases nothing is sent.
When the connection is open after the `Connect` step, whatever that step returned, the
frame is handed to `SendChunk` and the outcome of the call is the result of that chunk
write. -/
theorem SendClusterEventTo_gated_by_IsOpen {σ ε ι : Type} (T : Transport σ)
    (Parse : String → Option Nat) (U : ε → Option ι) (Serialize : ι → Option FString)
    (bo : ByteOrder) (A : Actor σ) (Address : String) (Port : Int) (Event : ε)
    (bMasterOnly : Bool) (fuel : Nat) (s : σ) (hs : A.Socket = some s) (hfuel : 1 ≤ fuel) :
    ∃ c A1 calls1, Connect T Parse A Address Port 1 0 fuel = Outcome.returned (c, A1, calls1) ∧
      calls1.length ≤ 1 ∧
      (U Event = none →
        SendClusterEventTo T Parse U Serialize bo A Address Port Event bMasterOnly fuel
          = Outcome.returned (false, A1, calls1)) ∧
      (IsOpen T A1 = false →
        SendClusterEventTo T Parse U Serialize bo A Address Port Event bMasterOnly fuel
          = Outcome.returned (false, A1, calls1)) ∧
      (∀ j, U Event = some j → IsOpen T A1 = true → Serialize j = none →
        SendClusterEventTo T Parse U Serialize bo A Address Port Event bMasterOnly fuel
          = Outcome.returned (false, ⟨A1.Socket, ⟨0, A1.DataBuffer.Data⟩⟩, calls1)) ∧
      (∀ j str s1, U Event = some j → A1.Socket = some s1 → T.Connected s1 = true →
        Serialize j = some str →
        sizeofFPacketHeader + str.length ≤ A1.DataBuffer.Data.length →
        IsInt32 (str.length : Int) →
        (∀ ok s2 sends,
          SendChunk T
              (headerBytes bo str.length ++ TCHAR_TO_ANSI str
                ++ A1.DataBuffer.Data.drop (sizeofFPacketHeader + str.length))
              (sizeofFPacketHeader + str.length) fuel s1 = some (ok, s2, sends) →
          SendClusterEventTo T Parse U Serialize bo A Address Port Event bMasterOnly fuel
            = Outcome.returned (ok,
                ⟨some s2, ⟨0, headerBytes bo str.length ++ TCHAR_TO_ANSI str
                  ++ A1.DataBuffer.Data.drop (sizeofFPacketHeader + str.length)⟩⟩,
                calls1 ++ sends.map Call.send)) ∧
        (T.Int32Replies → sizeofFPacketHeader + str.length ≤ fuel →
          ∃ ok s2 sends, SendChunk T
                (headerBytes bo str.length ++ TCHAR_TO_ANSI str
                  ++ A1.DataBuffer.Data.drop (sizeofFPacketHeader + str.length))
                (sizeofFPacketHeader + str.length) fuel s1 = some (ok, s2, sends))) := by
  obtain ⟨c, A1, calls1, hconn, hlen1⟩ :=
    Connect_single_attempt T Parse A s hs Address Port 0 fuel hfuel
  refine ⟨c, A1, calls1, hconn, hlen1, ?_, ?_, ?_, ?_⟩
  · intro hU
    simp only [SendClusterEventTo, hconn, hU]
  · intro hclosed
    cases hU : U Event with
    | none => simp only [SendClusterEventTo, hconn, hU]
    | some j => simp [SendClusterEventTo, hconn, hU, SendPacket, hclosed]
  · intro j hU hopen hser
    simp [SendClusterEventTo, hconn, hU, SendPacket, hopen, hser]
  · intro j str s1 hU hs1 hopen hser hfit hlen
    constructor
    · intro ok s2 sends hsend
      simp only [SendClusterEventTo, hconn, hU]
      rw [SendPacket_open T Serialize bo A1 j fuel s1 str hs1 hopen hser,
        SendPacket.encode_fits bo A1.DataBuffer.Data str hfit hlen]
      simp only [hsend]
    · intro hT hfuel2
      have hu : IsUInt32 (sizeofFPacketHeader + str.length) := by
        unfold IsInt32 at hlen
        unfold IsUInt32 sizeofFPacketHeader
        omega
      obtain ⟨ok, s2, sends, hrun, _⟩ := SendChunk.loop_fail_fast T hT
        (headerBytes bo str.length ++ TCHAR_TO_ANSI str
          ++ A1.DataBuffer.Data.drop (sizeofFPacketHeader + str.length))
        (sizeofFPacketHeader + str.length) hu fuel 0 s1 (Nat.zero_le _) (by omega)
      exact ⟨ok, s2, sends, hrun⟩

theorem SendClusterEventTo_gated_by_IsOpen_witness :
    ∃ c A1 calls1, Connect streamTransport loopbackParse (⟨some true, ⟨0, List.replicate 8 0⟩⟩ : Actor Bool) "127.0.0.1" 8080 1 0 6 = Outcome.returned (c, A1, calls1) ∧
      calls1.length ≤ 1 ∧
      ((fun (x : FString) => some x) [104, 105] = none →
        SendClusterEventTo streamTransport loopbackParse (fun (x : FString) => some x) (fun (x : FString) => some x) ByteOrder.little (⟨some true, ⟨0, List.replicate 8 0⟩⟩ : Actor Bool) "127.0.0.1" 8080 [104, 105] false 6
          = Outcome.returned (false, A1, calls1)) ∧
      (IsOpen streamTransport A1 = false →
        SendClusterEventTo streamTransport loopbackParse (fun (x : FString) => some x) (fun (x : FString) => some x) ByteOrder.little (⟨some true, ⟨0, List.replicate 8 0⟩⟩ : Actor Bool) "127.0.0.1" 8080 [104, 105] false 6
          = Outcome.returned (false, A1, calls1)) ∧
      (∀ j, (fun (x : FString) => some x) [104, 105] = some j → IsOpen streamTransport A1 = true → (fun (x : FString) => some x) j = none →
        SendClusterEventTo streamTransport loopbackParse (fun (x : FString) => some x) (fun (x : FString) => some x) ByteOrder.little (⟨some true, ⟨0, List.replicate 8 0⟩⟩ : Actor Bool) "127.0.0.1" 8080 [104, 105] false 6
          = Outcome.returned (false, ⟨A1.Socket, ⟨0, A1.DataBuffer.Data⟩⟩, calls1)) ∧
      (∀ j str s1, (fun (x : FString) => some x) [104, 105] = some j → A1.Socket = some s1 → streamTransport.Connected s1 = true →
        (fun (x : FString) => some x) j = some str →
        sizeofFPacketHeader + str.length ≤ A1.DataBuffer.Data.length →
        IsInt32 (str.length : Int) →
        (∀ ok s2 sends,
          SendChunk streamTransport
              (headerBytes ByteOrder.little str.length ++ TCHAR_TO_ANSI str
                ++ A1.DataBuffer.Data.drop (sizeofFPacketHeader + str.length))
              (sizeofFPacketHeader + str.length) 6 s1 = some (ok, s2, sends) →
          SendClusterEventTo streamTransport loopbackParse (fun (x : FString) => some x) (fun (x : FString) => some x) ByteOrder.little (⟨some true, ⟨0, List.replicate 8 0⟩⟩ : Actor Bool) "127.0.0.1" 8080 [104, 105] false 6
            = Outcome.returned (ok,
                ⟨some s2, ⟨0, headerBytes ByteOrder.little str.length ++ TCHAR_TO_ANSI str
                  ++ A1.DataBuffer.Data.drop (sizeofFPacketHeader + str.length)⟩⟩,
                calls1 ++ sends.map Call.send)) ∧
        (streamTransport.Int32Replies → sizeofFPacketHeader + str.length ≤ 6 →
          ∃ ok s2 sends, SendChunk streamTransport
                (headerBytes ByteOrder.little str.length ++ TCHAR_TO_ANSI str
                  ++ A1.DataBuffer.Data.drop (sizeofFPacketHeader + str.length))
                (sizeofFPacketHeader + str.length) 6 s1 = some (ok, s2, sends))) :=
  SendClusterEventTo_gated_by_IsOpen streamTransport loopbackParse (fun (x : FString) => some x)
    (fun (x : FString) => some x) ByteOrder.little ⟨some true, ⟨0, List.replicate 8 0⟩⟩
    "127.0.0.1" 8080 [104, 105] false 6 true rfl (by decide)

/-! ## Concrete runs -/

/-- A 7-byte chunk over a transport that takes at most 3 bytes per call: three calls, at
offsets 0, 3 and 6. -/
theorem SendChunk_chunked_example :
    SendChunk (chunkedTransport 3) [1, 2, 3, 4, 5, 6, 7] 7 7 0
      = some (true, 3, [⟨0, 7, true, 3⟩, ⟨3, 4, true, 3⟩, ⟨6, 1, true, 1⟩]) := by
  decide

/-- A transport that reports 0 bytes written: one call, then `false`. -/
theorem SendChunk_stalled_example :
    SendChunk stalledTransport [1, 2, 3, 4, 5, 6, 7] 7 7 0
      = some (false, 1, [⟨0, 7, true, 0⟩]) := by
  decide

/-- Three attempts against a socket that refuses every connection: connect, sleep,
connect, sleep, connect, then `false`. -/
theorem Connect_refused_example :
    Connect refusingTransport loopbackParse ⟨some 0, ⟨0, []⟩⟩ "127.0.0.1" 8080 3 500 3
      = Outcome.returned (false, ⟨some 3, ⟨0, []⟩⟩,
          [Call.connect 2130706433 8080, Call.sleep (500 / 1000),
           Call.connect 2130706433 8080, Call.sleep (500 / 1000),
           Call.connect 2130706433 8080]) := by
  simp [Connect, loopbackParse, Connect.loop, refusingTransport, wrapInt32]

/-- A first send on a socket that is not yet connected: one connect call, then the 6-byte
frame of the text `hi` in one send call. -/
theorem SendClusterEventTo_example :
    SendClusterEventTo streamTransport loopbackParse (fun (x : FString) => some x)
        (fun (x : FString) => some x) ByteOrder.little ⟨some false, ⟨0, List.replicate 8 0⟩⟩
        "127.0.0.1" 8080 [104, 105] false 6
      = Outcome.returned (true, ⟨some true, ⟨0, [2, 0, 0, 0, 104, 105, 0, 0]⟩⟩,
          [Call.connect 2130706433 8080, Call.send ⟨0, 6, true, 6⟩]) := by
  decide

end ClusterEventSender
